import Mathlib

/-!
Verification of the daily rotation/trip-schedule generator
(`app/services/rotation_service.py`) and the driver break lifecycle
(`app/services/break_service.py`) of the bus-fleet management backend.

Times are modelled as a calendar day (`Int`) together with a rational
minute-of-day; SQL float columns are modelled as `ℚ`.
-/

/-- A naive datetime: a day number plus a (possibly fractional) minute of day. -/
structure DateTime where
  day : Int
  minute : ℚ
deriving DecidableEq, Repr

/-- The `date()` part of a datetime (`cast(..., Date)` in SQLAlchemy),
normalising minute overflow past midnight. -/
def dateOf (t : DateTime) : Int :=
  t.day + Int.floor (t.minute / 1440)

/-- Total minutes since day 0, for comparing datetimes. -/
def toMinutes (t : DateTime) : ℚ :=
  t.day * 1440 + t.minute

/-- `(a - b).total_seconds() / 60.0`: difference of two datetimes in minutes. -/
def diffMinutes (a b : DateTime) : ℚ :=
  toMinutes a - toMinutes b

/-- `models.DriverStatus` -/
inductive DriverStatus where
  | ACTIVE | ON_TRIP | ON_BREAK | OFF_DUTY
deriving DecidableEq, Repr

/-- `models.VehicleStatus` -/
inductive VehicleStatus where
  | FREE | ASSIGNED | EN_ROUTE | MAINTENANCE | OUT_OF_SERVICE
deriving DecidableEq, Repr

/-- `models.TripStatus` -/
inductive TripStatus where
  | SCHEDULED | ACTIVE | COMPLETED | CANCELLED
deriving DecidableEq, Repr

/-- `models.TripDirection` -/
inductive TripDirection where
  | OUTBOUND | INBOUND
deriving DecidableEq, Repr

/-- `models.ShiftType` -/
inductive ShiftType where
  | MORNING | EVENING
deriving DecidableEq, Repr

/-- `models.RotationPosition` -/
inductive RotationPosition where
  | DRIVER_1 | DRIVER_2 | DRIVER_3
deriving DecidableEq, Repr

/-- `models.Driver` (the columns the generator and break services touch). -/
structure Driver where
  id : Nat
  user_id : Nat
  status : DriverStatus
  break_time_remaining : ℚ
  total_break_time_today : ℚ
  break_start_time : Option DateTime
  trips_since_last_break : Int
  current_break_number : Int
deriving DecidableEq, Repr

/-- `models.Vehicle` (the columns the generator touches). -/
structure Vehicle where
  id : Nat
  status : VehicleStatus
deriving DecidableEq, Repr

/-- `models.Route` (the columns the generator touches). -/
structure Route where
  id : Nat
  name : String
  estimated_time_minutes : ℚ
  turnaround_time_minutes : ℚ
  is_active : Bool
deriving DecidableEq, Repr

/-- `models.RotationAssignment` (the columns the generator sets). -/
structure RotationAssignment where
  id : Nat
  route_id : Nat
  driver_id : Nat
  vehicle_id : Nat
  shift_date : Int
  shift_type : ShiftType
  position : RotationPosition
  shift_start_time : DateTime
  shift_end_time : DateTime
deriving DecidableEq, Repr

/-- `models.Trip` (the columns the generator sets). -/
structure Trip where
  id : Nat
  trip_number : String
  route_id : Nat
  driver_id : Nat
  vehicle_id : Nat
  scheduled_start : DateTime
  scheduled_end : DateTime
  status : TripStatus
  direction : TripDirection
  rotation_assignment_id : Nat
deriving DecidableEq, Repr

/-- `models.Ticket` (only the foreign key the cleanup cascades on). -/
structure Ticket where
  id : Nat
  trip_id : Nat
deriving DecidableEq, Repr

/-- `models.GPSTracking` (only the foreign key the cleanup cascades on). -/
structure GPSTracking where
  id : Nat
  trip_id : Nat
deriving DecidableEq, Repr

/-- `models.DriverExchange` (only the foreign key the cleanup cascades on). -/
structure DriverExchange where
  id : Nat
  rotation_assignment_id : Nat
deriving DecidableEq, Repr

/-- `models.BreakLog` -/
structure BreakLog where
  driver_id : Nat
  shift_date : Int
  break_number : Int
  start_time : DateTime
  end_time : Option DateTime
  duration_minutes : Option ℚ
deriving DecidableEq, Repr

/-- `models.AuditLog` (the fields `log_action` fills from the break service). -/
structure AuditEntry where
  user_id : Nat
  action : String
  entity_type : String
  entity_id : Nat
deriving DecidableEq, Repr

/-- The slice of database state the break service reads and writes. -/
structure BreakDB where
  logs : List BreakLog
  audits : List AuditEntry
deriving DecidableEq, Repr

/-- `break_service.start_break`.  The driver-status guard in the source is a
bare `pass` (lines 23-26), so no status check is performed.  `minTrips` is
`settings.MIN_TRIPS_BEFORE_BREAK`. -/
def start_break (minTrips : Int) (now : DateTime) (driver : Driver) (db : BreakDB) :
    Except String (Driver × BreakDB × BreakLog) :=
  if driver.trips_since_last_break < minTrips then
    .error "Not enough trips completed to take a break"
  else if driver.break_time_remaining ≤ 0 then
    .error "No break time remaining"
  else
    let driver' : Driver :=
      { driver with
        status := .ON_BREAK
        break_start_time := some now
        current_break_number := driver.current_break_number + 1 }
    let break_log : BreakLog :=
      { driver_id := driver.id
        shift_date := dateOf now
        break_number := driver'.current_break_number
        start_time := now
        end_time := none
        duration_minutes := none }
    let db' : BreakDB :=
      { logs := db.logs ++ [break_log]
        audits := db.audits ++ [⟨driver.user_id, "START_BREAK", "Driver", driver.id⟩] }
    .ok (driver', db', break_log)

/-- The open break logs of a driver (`end_time == None`), paired with their
positions in the table. -/
def openLogsOf (driver_id : Nat) (logs : List BreakLog) : List (Nat × BreakLog) :=
  logs.enum.filter fun p => p.2.driver_id == driver_id && p.2.end_time == none

/-- Keep the later-starting of two candidate break logs (the earlier-seen one
on ties). -/
def pickLater (best : Option (Nat × BreakLog)) (p : Nat × BreakLog) : Option (Nat × BreakLog) :=
  match best with
  | none => some p
  | some b => if toMinutes p.2.start_time > toMinutes b.2.start_time then some p else some b

/-- `select ... order_by(BreakLog.start_time.desc()) ... first()` over the open
break logs of a driver: an open log with maximal start time (first in table
order among ties). -/
def mostRecentOpen (driver_id : Nat) (logs : List BreakLog) : Option (Nat × BreakLog) :=
  (openLogsOf driver_id logs).foldl pickLater none

/-- Close the break log at position `i` with the given end time and duration. -/
def closeLogAt (logs : List BreakLog) (i : Nat) (now : DateTime) (duration : ℚ) :
    List BreakLog :=
  logs.enum.map fun p =>
    if p.1 = i then { p.2 with end_time := some now, duration_minutes := some duration } else p.2

/-- `break_service.end_break`. -/
def end_break (now : DateTime) (driver : Driver) (db : BreakDB) :
    Except String (Driver × BreakDB) :=
  if driver.status ≠ DriverStatus.ON_BREAK then .error "Driver is not on break"
  else
    match driver.break_start_time with
    | none => .error "Driver is not on break"
    | some bst =>
      let duration : ℚ := diffMinutes now bst
      let driver' : Driver :=
        { driver with
          status := .ACTIVE
          break_time_remaining := max 0 (driver.break_time_remaining - duration)
          total_break_time_today := driver.total_break_time_today + duration
          break_start_time := none
          trips_since_last_break := 0 }
      let logs' : List BreakLog :=
        match mostRecentOpen driver.id db.logs with
        | some p => closeLogAt db.logs p.1 now duration
        | none => db.logs
      let db' : BreakDB :=
        { logs := logs'
          audits := db.audits ++ [⟨driver.user_id, "END_BREAK", "Driver", driver.id⟩] }
      .ok (driver', db')

/-- The database tables the generator reads and writes, plus autoincrement
counters for the primary keys assigned at flush/commit time. -/
structure DB where
  routes : List Route
  drivers : List Driver
  vehicles : List Vehicle
  trips : List Trip
  assignments : List RotationAssignment
  tickets : List Ticket
  gps : List GPSTracking
  exchanges : List DriverExchange
  next_assignment_id : Nat
  next_trip_id : Nat
deriving DecidableEq, Repr

/-- An async SQLAlchemy session: the last committed state of the store and the
pending state seen inside the transaction.  `get_db` closes the session
without committing, so only `db.commit()` moves `pending` into `committed`. -/
structure Session where
  committed : DB
  pending : DB
deriving DecidableEq, Repr

/-- Failure injection: which awaited database operations (numbered in
execution order) raise. -/
def FailSet : Type := Nat → Bool

/-- The failure set under which every operation succeeds. -/
def noFail : FailSet := fun _ => false

/-- Interpreter state: the index of the next awaited operation plus the
session. -/
structure MState where
  opIdx : Nat
  sess : Session

/-- The effect monad of the generator: exceptions over session state, with
failure injection at each awaited database operation. -/
def M (α : Type) : Type := FailSet → MState → Except String α × MState

instance instMonadM : Monad M where
  pure a := fun _ st => (.ok a, st)
  bind m k := fun fs st =>
    match m fs st with
    | (.ok a, st') => k a fs st'
    | (.error e, st') => (.error e, st')

/-- An awaited read (`await db.execute(select ...)`): a failure point. -/
def dbRead {α : Type} (f : DB → α) : M α := fun fs st =>
  if fs st.opIdx then (.error "database error", { st with opIdx := st.opIdx + 1 })
  else (.ok (f st.sess.pending), { st with opIdx := st.opIdx + 1 })

/-- An awaited write statement (`await db.execute(delete ...)` or
`await db.flush()`), mutating the pending state: a failure point. -/
def dbExec (f : DB → DB) : M Unit := fun fs st =>
  if fs st.opIdx then (.error "database error", { st with opIdx := st.opIdx + 1 })
  else (.ok (), { opIdx := st.opIdx + 1,
                  sess := { st.sess with pending := f st.sess.pending } })

/-- `await db.flush()`: a failure point; new objects were already recorded by
`db.add`, so the pending state is unchanged. -/
def dbFlush : M Unit := dbExec id

/-- `db.add(...)`: synchronous session bookkeeping, not awaited, cannot fail. -/
def dbAdd {α : Type} (f : DB → α × DB) : M α := fun _ st =>
  let r := f st.sess.pending
  (.ok r.1, { st with sess := { st.sess with pending := r.2 } })

/-- `await db.commit()`: the only operation that persists the pending state. -/
def dbCommit : M Unit := fun fs st =>
  if fs st.opIdx then (.error "database error", { st with opIdx := st.opIdx + 1 })
  else (.ok (), { opIdx := st.opIdx + 1,
                  sess := { committed := st.sess.pending, pending := st.sess.pending } })

/-- Two-digit zero padding, as in `strftime`. -/
def pad2 (n : Nat) : String := if n < 10 then "0" ++ toString n else toString n

/-- `strftime('%H%M')` of a datetime. -/
def hhmm (t : DateTime) : String :=
  let m : Nat := (Int.floor t.minute).toNat
  pad2 (m / 60 % 24) ++ pad2 (m % 60)

/-- The trip-sequencing `while` loop of `generate_daily_schedule`
(rotation_service.py lines 104-145).  Times are minutes of the target day:
the window runs from 06:00 (minute 360) to 14:00 (minute 840) stepping by the
60-minute dispatch frequency; `toggle` is `driver_toggle` (`false` selects the
first assignment); `nid` is the trip autoincrement counter.  Each iteration
yields the OUTBOUND trip and, when its computed return start falls strictly
before the window end, the INBOUND trip. -/
def seqLoop (route : Route) (target_date : Int) (a1 a2 : RotationAssignment)
    (current : Nat) (toggle : Bool) (nid : Nat) :
    List (Trip × Option Trip) × Nat :=
  if current < 840 then
    let active := if toggle then a2 else a1
    let trip_out : Trip :=
      { id := nid
        trip_number := (route.name.take 3).toUpper ++ "-" ++ hhmm ⟨target_date, (current : ℚ)⟩ ++ "-O"
        route_id := route.id
        driver_id := active.driver_id
        vehicle_id := active.vehicle_id
        scheduled_start := ⟨target_date, (current : ℚ)⟩
        scheduled_end := ⟨target_date, (current : ℚ) + route.estimated_time_minutes⟩
        status := .SCHEDULED
        direction := .OUTBOUND
        rotation_assignment_id := active.id }
    let return_start : ℚ :=
      (current : ℚ) + route.estimated_time_minutes + route.turnaround_time_minutes
    if return_start < 840 then
      let trip_in : Trip :=
        { id := nid + 1
          trip_number := (route.name.take 3).toUpper ++ "-" ++ hhmm ⟨target_date, return_start⟩ ++ "-I"
          route_id := route.id
          driver_id := active.driver_id
          vehicle_id := active.vehicle_id
          scheduled_start := ⟨target_date, return_start⟩
          scheduled_end := ⟨target_date, return_start + route.estimated_time_minutes⟩
          status := .SCHEDULED
          direction := .INBOUND
          rotation_assignment_id := active.id }
      let rest := seqLoop route target_date a1 a2 (current + 60) (!toggle) (nid + 2)
      ((trip_out, some trip_in) :: rest.1, rest.2)
    else
      let rest := seqLoop route target_date a1 a2 (current + 60) (!toggle) (nid + 1)
      ((trip_out, none) :: rest.1, rest.2)
  else ([], nid)
termination_by 840 - current

/-- Build the two MORNING rotation assignments of a route
(rotation_service.py lines 84-100): one per pair of
`zip(route_drivers[:2], route_vehicles)`, position DRIVER_1 for the first and
DRIVER_2 for the second, over the fixed 06:00-15:00 shift window, with ids
drawn from the autoincrement counter. -/
def addAssignments (route : Route) (target_date : Int)
    (route_drivers : List Driver) (route_vehicles : List Vehicle) (db : DB) :
    List RotationAssignment × DB :=
  let pairs := (route_drivers.take 2).zip route_vehicles
  let new_assignments := pairs.enum.map fun p =>
    { id := db.next_assignment_id + p.1
      route_id := route.id
      driver_id := p.2.1.id
      vehicle_id := p.2.2.id
      shift_date := target_date
      shift_type := .MORNING
      position := if p.1 = 0 then RotationPosition.DRIVER_1 else RotationPosition.DRIVER_2
      shift_start_time := ⟨target_date, 360⟩
      shift_end_time := ⟨target_date, 900⟩ : RotationAssignment }
  (new_assignments,
   { db with assignments := db.assignments ++ new_assignments,
             next_assignment_id := db.next_assignment_id + pairs.length })

/-- The `db.add(trip)` calls of the sequencing loop: append the sequenced
trips to the session in creation order and advance the trip id counter. -/
def addSeqTrips (route : Route) (target_date : Int)
    (a1 a2 : RotationAssignment) (db : DB) : List Trip × DB :=
  let r := seqLoop route target_date a1 a2 360 false db.next_trip_id
  let ts := (r.1.map fun p => p.1 :: p.2.toList).flatten
  (ts, { db with trips := db.trips ++ ts, next_trip_id := r.2 })

/-- One iteration of the route loop (rotation_service.py lines 73-145): slice
the shared pools, skip an under-provisioned route without advancing the
indices, otherwise advance the rotating indices modulo the pool sizes,
persist the two assignments, flush, and sequence the trips. -/
def routeStep (target_date : Int) (all_drivers : List Driver) (all_vehicles : List Vehicle)
    (acc : Nat × Nat × List Trip) (route : Route) : M (Nat × Nat × List Trip) :=
  let driver_idx := acc.1
  let vehicle_idx := acc.2.1
  let route_drivers := (all_drivers.drop driver_idx).take 3
  let route_vehicles := (all_vehicles.drop vehicle_idx).take 2
  if route_drivers.length < 2 ∨ route_vehicles.length < 2 then
    pure acc
  else
    let driver_idx' := (driver_idx + 3) % all_drivers.length
    let vehicle_idx' := (vehicle_idx + 2) % all_vehicles.length
    dbAdd (addAssignments route target_date route_drivers route_vehicles) >>=
    fun assignments =>
    dbFlush >>= fun _ =>
    match assignments with
    | a1 :: a2 :: _ =>
      dbAdd (addSeqTrips route target_date a1 a2) >>= fun newTrips =>
      pure (driver_idx', vehicle_idx', acc.2.2 ++ newTrips)
    | _ => pure (driver_idx', vehicle_idx', acc.2.2)

/-- The REGENERATE cleanup phase (rotation_service.py lines 20-51): collect
the identifier sets for the date up front, then delete trip-dependent records
(tickets, GPS logs), assignment-dependent records (driver exchanges), trips,
assignments, and flush.  The `try/except` only logs and re-raises, so
failures propagate unchanged. -/
def regenerateCleanup (target_date : Int) : M Unit :=
  dbRead (fun db =>
    (db.assignments.filter fun a => a.shift_date == target_date).map (·.id)) >>=
  fun assignment_ids =>
  dbRead (fun db =>
    (db.trips.filter fun t => dateOf t.scheduled_start == target_date).map (·.id)) >>=
  fun trip_ids =>
  (if trip_ids ≠ [] then
    dbExec (fun db =>
      { db with tickets := db.tickets.filter fun tk => !trip_ids.contains tk.trip_id }) >>=
    fun _ =>
    dbExec fun db =>
      { db with gps := db.gps.filter fun g => !trip_ids.contains g.trip_id }
  else pure ()) >>= fun _ =>
  (if assignment_ids ≠ [] then
    dbExec fun db =>
      { db with exchanges :=
          db.exchanges.filter fun e => !assignment_ids.contains e.rotation_assignment_id }
  else pure ()) >>= fun _ =>
  (if trip_ids ≠ [] then
    dbExec fun db =>
      { db with trips := db.trips.filter fun t => !trip_ids.contains t.id }
  else pure ()) >>= fun _ =>
  (if assignment_ids ≠ [] then
    dbExec fun db =>
      { db with assignments := db.assignments.filter fun a => !assignment_ids.contains a.id }
  else pure ()) >>= fun _ =>
  dbFlush

/-- `rotation_service.generate_daily_schedule`. -/
def generate_daily_schedule (target_date : Int) (regenerate : Bool) : M (List Trip) :=
  dbRead (fun db =>
    (db.trips.filter fun t => dateOf t.scheduled_start == target_date).length) >>=
  fun existing_trips_count =>
  if existing_trips_count > 0 ∧ ¬ regenerate then pure []
  else
    (if regenerate then regenerateCleanup target_date else pure ()) >>= fun _ =>
    dbRead (fun db => db.routes.filter (·.is_active)) >>= fun routes =>
    dbRead (fun db => db.drivers.filter fun d => d.status != DriverStatus.OFF_DUTY) >>=
    fun all_drivers =>
    dbRead (fun db => db.vehicles.filter fun v => v.status != VehicleStatus.OUT_OF_SERVICE) >>=
    fun all_vehicles =>
    if all_drivers = [] ∨ all_vehicles = [] then pure []
    else
      routes.foldlM (routeStep target_date all_drivers all_vehicles) (0, 0, []) >>= fun r =>
      dbCommit >>= fun _ =>
      pure r.2.2

/-- A driver on a trip who meets the numeric break-eligibility thresholds. -/
def onTripDriver : Driver :=
  { id := 7, user_id := 7, status := .ON_TRIP, break_time_remaining := 30,
    total_break_time_today := 0, break_start_time := none,
    trips_since_last_break := 1, current_break_number := 0 }

/-- An active, break-eligible driver with a full break budget. -/
def eagerDriver : Driver :=
  { id := 8, user_id := 8, status := .ACTIVE, break_time_remaining := 60,
    total_break_time_today := 0, break_start_time := none,
    trips_since_last_break := 1, current_break_number := 0 }

/-- The number of open break logs a driver has. -/
def openCount (driver_id : Nat) (logs : List BreakLog) : Nat :=
  (openLogsOf driver_id logs).length

/-- A driver 22 minutes into a break, for the C10 witness. -/
def lonelyDriver : Driver :=
  { id := 9, user_id := 9, status := .ON_BREAK, break_time_remaining := 30,
    total_break_time_today := 5, break_start_time := some ⟨0, 600⟩,
    trips_since_last_break := 2, current_break_number := 1 }

/-- A log table holding only another driver's open log and a closed log of
driver 9, so driver 9 has no open BreakLog. -/
def lonelyDB : BreakDB :=
  { logs := [⟨3, 0, 1, ⟨0, 500⟩, none, none⟩, ⟨9, 0, 1, ⟨0, 400⟩, some ⟨0, 420⟩, some 20⟩]
    audits := [] }

/-- A store already holding one trip on day 0. -/
def dbC1 : DB :=
  { routes := [⟨1, "Riverside Express", 40, 10, true⟩]
    drivers := [⟨1, 1, .ACTIVE, 60, 0, none, 0, 0⟩]
    vehicles := [⟨1, .FREE⟩]
    trips := [⟨1, "RIV-0600-O", 1, 1, 1, ⟨0, 360⟩, ⟨0, 400⟩, .SCHEDULED, .OUTBOUND, 1⟩]
    assignments := [], tickets := [], gps := [], exchanges := []
    next_assignment_id := 2, next_trip_id := 2 }

/-- Initial interpreter state over `dbC1`. -/
def stC1 : MState := ⟨0, ⟨dbC1, dbC1⟩⟩

/-- The combined effect of the cleanup deletions on the pending state:
every table filtered against the identifier sets collected for the date. -/
def cleanupPending (target_date : Int) (db : DB) : DB :=
  let assignment_ids := (db.assignments.filter fun a => a.shift_date == target_date).map (·.id)
  let trip_ids := (db.trips.filter fun t => dateOf t.scheduled_start == target_date).map (·.id)
  { db with
    tickets := db.tickets.filter fun tk => !trip_ids.contains tk.trip_id
    gps := db.gps.filter fun g => !trip_ids.contains g.trip_id
    exchanges := db.exchanges.filter fun e => !assignment_ids.contains e.rotation_assignment_id
    trips := db.trips.filter fun t => !trip_ids.contains t.id
    assignments := db.assignments.filter fun a => !assignment_ids.contains a.id }

/-- `m` never commits: after running `m` the committed state is unchanged,
under every failure set. -/
def NoCommit {α : Type} (m : M α) : Prop :=
  ∀ fs st, ((m fs st).2).sess.committed = st.sess.committed

/-- On an error `m` leaves the committed state alone; on success `m` either
committed everything (committed = pending) or committed nothing while its
result satisfies `P`. -/
def CommitOutcome {α : Type} (P : α → Prop) (m : M α) : Prop :=
  ∀ fs st,
    (∀ e st', m fs st = (.error e, st') → st'.sess.committed = st.sess.committed) ∧
    (∀ a st', m fs st = (.ok a, st') →
      st'.sess.committed = st'.sess.pending ∨
        (P a ∧ st'.sess.committed = st.sess.committed))

/-- A store with one trip on day 0 but no drivers at all. -/
def dbC6 : DB :=
  { routes := [], drivers := [], vehicles := []
    trips := [⟨1, "RIV-0600-O", 1, 1, 1, ⟨0, 360⟩, ⟨0, 400⟩, .SCHEDULED, .OUTBOUND, 1⟩]
    assignments := [], tickets := [], gps := [], exchanges := []
    next_assignment_id := 1, next_trip_id := 2 }

/-- Initial interpreter state over `dbC6`. -/
def stC6 : MState := ⟨0, ⟨dbC6, dbC6⟩⟩

/-- The scheduling-relevant fields of a trip. -/
def tripSummary (t : Trip) : TripDirection × ℚ × ℚ :=
  (t.direction, t.scheduled_start.minute, t.scheduled_end.minute)

/-- The summaries of one dispatch cycle's outbound trip and optional inbound
trip. -/
def pairSummaries (p : Trip × Option Trip) : List (TripDirection × ℚ × ℚ) :=
  tripSummary p.1 :: (p.2.map tripSummary).toList

/-- The trip schedule exactly as claim C4 words it: from a cycle time
(starting at 06:00, minute 360) and stepping by 60 minutes while the cycle
time is strictly before 14:00 (minute 840), each cycle yields
(OUTBOUND, t, t + est) and, exactly when t + est + turn < 840 (the outbound
end plus the turnaround), (INBOUND, t + est + turn, t + est + turn + est). -/
def specFrom (est turn : ℚ) (current : Nat) : List (TripDirection × ℚ × ℚ) :=
  if current < 840 then
    ((TripDirection.OUTBOUND, (current : ℚ), (current : ℚ) + est) ::
      (if (current : ℚ) + est + turn < 840 then
        [(TripDirection.INBOUND, (current : ℚ) + est + turn,
          (current : ℚ) + est + turn + est)]
      else [])) ++ specFrom est turn (current + 60)
  else []
termination_by 840 - current

/-- The demonstration route of the spec's example: estimated 40, turnaround
10. -/
def demoRoute : Route := ⟨1, "Riverside Express", 40, 10, true⟩

/-- A first morning assignment for the demonstration route. -/
def demoA1 : RotationAssignment :=
  ⟨1, 1, 11, 21, 0, .MORNING, .DRIVER_1, ⟨0, 360⟩, ⟨0, 900⟩⟩

/-- A second morning assignment for the demonstration route. -/
def demoA2 : RotationAssignment :=
  ⟨2, 1, 12, 22, 0, .MORNING, .DRIVER_2, ⟨0, 360⟩, ⟨0, 900⟩⟩

/-- "Hill Line", the second active route of the counterexample pools. -/
def hillRoute : Route := ⟨2, "Hill Line", 30, 10, true⟩

/-- An active driver with a fresh break budget. -/
def mkDriver (i : Nat) : Driver := ⟨i, i, .ACTIVE, 60, 0, none, 0, 0⟩

/-- A free vehicle. -/
def mkVehicle (i : Nat) : Vehicle := ⟨i, .FREE⟩

/-- Two active routes sharing a pool of four drivers and four vehicles. -/
def dbC7 : DB :=
  { routes := [demoRoute, hillRoute]
    drivers := [mkDriver 1, mkDriver 2, mkDriver 3, mkDriver 4]
    vehicles := [mkVehicle 1, mkVehicle 2, mkVehicle 3, mkVehicle 4]
    trips := [], assignments := [], tickets := [], gps := [], exchanges := []
    next_assignment_id := 1, next_trip_id := 1 }

/-- The first assignment the run creates for route 1 of the counterexample. -/
def aC7_1 : RotationAssignment :=
  ⟨1, 1, 1, 1, 0, .MORNING, .DRIVER_1, ⟨0, 360⟩, ⟨0, 900⟩⟩

/-- The second assignment the run creates for route 1 of the counterexample. -/
def aC7_2 : RotationAssignment :=
  ⟨2, 1, 2, 2, 0, .MORNING, .DRIVER_2, ⟨0, 360⟩, ⟨0, 900⟩⟩

/-- The pending state after route 1's assignments are persisted. -/
def dbMidC7 : DB :=
  { dbC7 with assignments := [aC7_1, aC7_2], next_assignment_id := 3 }

/-- Initial interpreter state over `dbC7`. -/
def stC7 : MState := ⟨0, ⟨dbC7, dbC7⟩⟩

theorem pickLater_some (acc : Option (Nat × BreakLog)) (p : Nat × BreakLog) :
    ∃ q, pickLater acc p = some q ∧
      toMinutes p.2.start_time ≤ toMinutes q.2.start_time ∧
      (∀ b, acc = some b → toMinutes b.2.start_time ≤ toMinutes q.2.start_time) ∧
      (q = p ∨ acc = some q) := by
  cases acc with
  | none => exact ⟨p, rfl, le_refl _, by simp, Or.inl rfl⟩
  | some b =>
    by_cases h : toMinutes p.2.start_time > toMinutes b.2.start_time
    · refine ⟨p, by simp [pickLater, h], le_refl _, ?_, Or.inl rfl⟩
      intro b' hb'
      injection hb' with hb'
      exact le_of_lt (hb' ▸ h)
    · refine ⟨b, by simp [pickLater, h], not_lt.mp h, ?_, Or.inr rfl⟩
      intro b' hb'
      injection hb' with hb'
      exact hb' ▸ le_refl _

theorem foldl_pickLater_none_iff (cs : List (Nat × BreakLog)) :
    ∀ acc : Option (Nat × BreakLog), cs.foldl pickLater acc = none ↔ (cs = [] ∧ acc = none) := by
  induction cs with
  | nil => intro acc; simp
  | cons c cs ih =>
    intro acc
    rw [List.foldl_cons, ih]
    obtain ⟨q, hq, -⟩ := pickLater_some acc c
    simp [hq]

theorem foldl_pickLater_spec (cs : List (Nat × BreakLog)) :
    ∀ (acc : Option (Nat × BreakLog)) (p : Nat × BreakLog), cs.foldl pickLater acc = some p →
      (p ∈ cs ∨ acc = some p) ∧
      (∀ c ∈ cs, toMinutes c.2.start_time ≤ toMinutes p.2.start_time) ∧
      (∀ b, acc = some b → toMinutes b.2.start_time ≤ toMinutes p.2.start_time) := by
  induction cs with
  | nil =>
    intro acc p h
    simp only [List.foldl_nil] at h
    refine ⟨Or.inr h, by simp, ?_⟩
    intro b hb
    rw [h] at hb
    injection hb with hb
    exact hb ▸ le_refl _
  | cons c cs ih =>
    intro acc p h
    rw [List.foldl_cons] at h
    obtain ⟨h1, h2, h3⟩ := ih (pickLater acc c) p h
    obtain ⟨q, hq, hcq, hacc, hqc⟩ := pickLater_some acc c
    have hqp : toMinutes q.2.start_time ≤ toMinutes p.2.start_time := h3 q hq
    refine ⟨?_, ?_, ?_⟩
    · rcases h1 with h1 | h1
      · exact Or.inl (List.mem_cons_of_mem _ h1)
      · rw [hq] at h1
        injection h1 with h1
        subst h1
        rcases hqc with rfl | h
        · exact Or.inl (List.mem_cons_self _ _)
        · exact Or.inr h
    · intro x hx
      rcases List.mem_cons.mp hx with rfl | hx
      · exact le_trans hcq hqp
      · exact h2 x hx
    · intro b hb
      exact le_trans (hacc b hb) hqp

theorem mostRecentOpen_none_iff (d : Nat) (logs : List BreakLog) :
    mostRecentOpen d logs = none ↔ openLogsOf d logs = [] := by
  unfold mostRecentOpen
  rw [foldl_pickLater_none_iff]
  simp

theorem mostRecentOpen_spec (d : Nat) (logs : List BreakLog) (p : Nat × BreakLog)
    (h : mostRecentOpen d logs = some p) :
    p ∈ openLogsOf d logs ∧
      ∀ c ∈ openLogsOf d logs, toMinutes c.2.start_time ≤ toMinutes p.2.start_time := by
  obtain ⟨h1, h2, -⟩ := foldl_pickLater_spec _ none p h
  exact ⟨h1.resolve_right (by simp), h2⟩

theorem mem_openLogsOf (d : Nat) (logs : List BreakLog) (p : Nat × BreakLog) :
    p ∈ openLogsOf d logs ↔
      logs[p.1]? = some p.2 ∧ p.2.driver_id = d ∧ p.2.end_time = none := by
  simp [openLogsOf, List.mem_filter, List.mem_enum_iff_getElem?]

theorem closeLogAt_length (logs : List BreakLog) (i : Nat) (now : DateTime) (dur : ℚ) :
    (closeLogAt logs i now dur).length = logs.length := by
  simp [closeLogAt]

theorem closeLogAt_getElem (logs : List BreakLog) (i : Nat) (now : DateTime) (dur : ℚ)
    (j : Nat) :
    (closeLogAt logs i now dur)[j]? =
      (logs[j]?).map fun l =>
        if j = i then { l with end_time := some now, duration_minutes := some dur } else l := by
  simp only [closeLogAt, List.getElem?_map, List.getElem?_enum]
  cases logs[j]? <;> simp

/-- **C2.** The claim says `start_break` succeeds only for a driver whose
status is ACTIVE.  In the source the status guard is a bare `pass`
(break_service.py lines 23-26), so a driver whose status is ON_TRIP and who
meets the trip and budget thresholds starts a break successfully: the spec
(and the code's own comment) state the intent, the code omits the check. -/
theorem c2_start_break_ignores_status :
    onTripDriver.status ≠ DriverStatus.ACTIVE ∧
    ∃ d' db' bl, start_break 1 ⟨0, 600⟩ onTripDriver ⟨[], []⟩ = .ok (d', db', bl) ∧
      d'.status = DriverStatus.ON_BREAK := by
  exact ⟨by decide, _, _, _, rfl, rfl⟩

/-- **C9.** The claim says `start_break`/`end_break` preserve "at most one
open BreakLog per driver".  Because `start_break` never checks the status and
never resets `trips_since_last_break`, a second `start_break` from an
ON_BREAK driver succeeds and opens a second BreakLog: from a state with one
open log the driver ends up with two simultaneously open logs. -/
theorem c9_start_break_opens_second_log :
    ∃ d1 db1 bl1 d2 db2 bl2,
      start_break 1 ⟨0, 600⟩ eagerDriver ⟨[], []⟩ = .ok (d1, db1, bl1) ∧
      openCount eagerDriver.id db1.logs = 1 ∧
      d1.status = DriverStatus.ON_BREAK ∧
      start_break 1 ⟨0, 630⟩ d1 db1 = .ok (d2, db2, bl2) ∧
      openCount eagerDriver.id db2.logs = 2 := by
  exact ⟨_, _, _, _, _, _, rfl, by decide, rfl, rfl, by decide⟩

/-- **C10.** For a driver whose status is ON_BREAK with `break_start_time`
set but with no open BreakLog row, `end_break` still succeeds without
raising: it applies every driver-field update (status ACTIVE, budget
decrement floored at 0, total incremented, start time cleared, trip counter
reset) and closes no BreakLog — the log table is returned unchanged. -/
theorem c10_end_break_without_open_log (now bst : DateTime) (driver : Driver) (db : BreakDB)
    (hst : driver.status = DriverStatus.ON_BREAK)
    (hbst : driver.break_start_time = some bst)
    (hopen : ∀ l ∈ db.logs, l.driver_id = driver.id → l.end_time ≠ none) :
    end_break now driver db =
      .ok ({ driver with
              status := .ACTIVE
              break_time_remaining := max 0 (driver.break_time_remaining - diffMinutes now bst)
              total_break_time_today := driver.total_break_time_today + diffMinutes now bst
              break_start_time := none
              trips_since_last_break := 0 },
            { logs := db.logs
              audits := db.audits ++ [⟨driver.user_id, "END_BREAK", "Driver", driver.id⟩] }) := by
  have hmro : mostRecentOpen driver.id db.logs = none := by
    rw [mostRecentOpen_none_iff]
    simp only [openLogsOf]
    rw [List.filter_eq_nil_iff]
    intro p hp
    have hmem : p.2 ∈ db.logs := by
      rw [List.mem_enum_iff_getElem?] at hp
      exact List.getElem?_mem hp
    intro hcontra
    simp only [Bool.and_eq_true, beq_iff_eq] at hcontra
    exact hopen p.2 hmem hcontra.1 hcontra.2
  rw [end_break]
  simp [hst, hbst, hmro]

/-- Witness for C10 at a concrete input: a 22-minute break by a driver with
no open log row. -/
theorem c10_witness :
    diffMinutes ⟨0, 622⟩ ⟨0, 600⟩ = 22 ∧
    end_break ⟨0, 622⟩ lonelyDriver lonelyDB =
      .ok ({ lonelyDriver with
              status := .ACTIVE
              break_time_remaining :=
                max 0 (lonelyDriver.break_time_remaining - diffMinutes ⟨0, 622⟩ ⟨0, 600⟩)
              total_break_time_today :=
                lonelyDriver.total_break_time_today + diffMinutes ⟨0, 622⟩ ⟨0, 600⟩
              break_start_time := none
              trips_since_last_break := 0 },
            { logs := lonelyDB.logs
              audits := lonelyDB.audits ++ [⟨9, "END_BREAK", "Driver", 9⟩] }) :=
  ⟨by norm_num [diffMinutes, toMinutes],
   c10_end_break_without_open_log ⟨0, 622⟩ ⟨0, 600⟩ lonelyDriver lonelyDB rfl rfl (by decide)⟩

/-- **C3.** `end_break` fails with NotOnBreak exactly when the status is not
ON_BREAK or `break_start_time` is unset; otherwise, with
`duration = now - break_start_time` in minutes, it sets the status to ACTIVE,
floors the remaining budget at 0, adds the duration to the daily total,
clears the start time, resets `trips_since_last_break` to 0, and — whenever
the driver has an open BreakLog — closes the most recent open one (maximal
start time) with `end_time = now` and `duration_minutes = duration`, leaving
every other row unchanged. -/
theorem c3_end_break_correct (now : DateTime) (driver : Driver) (db : BreakDB) :
    ((∃ e, end_break now driver db = .error e) ↔
      (driver.status ≠ DriverStatus.ON_BREAK ∨ driver.break_start_time = none)) ∧
    (∀ bst, driver.status = DriverStatus.ON_BREAK → driver.break_start_time = some bst →
      ∃ db', end_break now driver db =
          .ok ({ driver with
                  status := .ACTIVE
                  break_time_remaining :=
                    max 0 (driver.break_time_remaining - diffMinutes now bst)
                  total_break_time_today :=
                    driver.total_break_time_today + diffMinutes now bst
                  break_start_time := none
                  trips_since_last_break := 0 }, db') ∧
        db'.logs.length = db.logs.length ∧
        ((∃ l ∈ db.logs, l.driver_id = driver.id ∧ l.end_time = none) →
          ∃ (i : Nat) (l : BreakLog),
            db.logs[i]? = some l ∧ l.driver_id = driver.id ∧ l.end_time = none ∧
            (∀ (j : Nat) (lj : BreakLog),
              db.logs[j]? = some lj → lj.driver_id = driver.id → lj.end_time = none →
              toMinutes lj.start_time ≤ toMinutes l.start_time) ∧
            db'.logs[i]? = some { l with end_time := some now,
                                          duration_minutes := some (diffMinutes now bst) } ∧
            (∀ j : Nat, j ≠ i → db'.logs[j]? = db.logs[j]?))) := by
  constructor
  · constructor
    · rintro ⟨e, he⟩
      by_contra hcon
      push_neg at hcon
      obtain ⟨hst, hbst⟩ := hcon
      rw [end_break] at he
      obtain ⟨bst, hbst'⟩ := Option.ne_none_iff_exists'.mp hbst
      simp [hst, hbst'] at he
    · intro h
      rw [end_break]
      rcases h with hst | hbst
      · exact ⟨"Driver is not on break", by simp [hst]⟩
      · by_cases hst : driver.status = DriverStatus.ON_BREAK
        · exact ⟨"Driver is not on break", by simp [hst, hbst]⟩
        · exact ⟨"Driver is not on break", by simp [hst]⟩
  · intro bst hst hbst
    rw [end_break]
    simp only [hst, hbst, ne_eq, not_true_eq_false, if_false, ite_false]
    refine ⟨_, rfl, ?_, ?_⟩
    · cases hmro : mostRecentOpen driver.id db.logs with
      | none => rfl
      | some p => exact closeLogAt_length db.logs p.1 now (diffMinutes now bst)
    · rintro ⟨l0, hl0mem, hl0d, hl0e⟩
      cases hmro : mostRecentOpen driver.id db.logs with
      | none =>
        exfalso
        rw [mostRecentOpen_none_iff] at hmro
        obtain ⟨i0, hi0⟩ := List.mem_iff_getElem?.mp hl0mem
        have : (i0, l0) ∈ openLogsOf driver.id db.logs :=
          (mem_openLogsOf driver.id db.logs (i0, l0)).mpr ⟨hi0, hl0d, hl0e⟩
        rw [hmro] at this
        exact List.not_mem_nil _ this
      | some p =>
        obtain ⟨hpmem, hpmax⟩ := mostRecentOpen_spec driver.id db.logs p hmro
        obtain ⟨hpget, hpd, hpe⟩ := (mem_openLogsOf driver.id db.logs p).mp hpmem
        refine ⟨p.1, p.2, hpget, hpd, hpe, ?_, ?_, ?_⟩
        · intro j lj hj hjd hje
          exact hpmax (j, lj) ((mem_openLogsOf driver.id db.logs (j, lj)).mpr ⟨hj, hjd, hje⟩)
        · rw [closeLogAt_getElem, hpget]
          simp
        · intro j hj
          rw [closeLogAt_getElem]
          cases db.logs[j]? with
          | none => rfl
          | some lj => simp [hj]

/-- Unfold one monadic bind of `M`. -/
theorem bind_run {α β : Type} (m : M α) (k : α → M β) (fs : FailSet) (st : MState) :
    (m >>= k) fs st =
      match m fs st with
      | (.ok a, st') => k a fs st'
      | (.error e, st') => (.error e, st') := rfl

/-- Unfold `pure` of `M`. -/
theorem pure_run {α : Type} (a : α) (fs : FailSet) (st : MState) :
    (pure a : M α) fs st = (.ok a, st) := rfl

/-- Running a read under `noFail`. -/
theorem dbRead_run {α : Type} (f : DB → α) (st : MState) :
    dbRead f noFail st = (.ok (f st.sess.pending), { st with opIdx := st.opIdx + 1 }) := rfl

/-- **C1.** When at least one trip is already stored for the date,
`generate_daily_schedule(D, regenerate=false)` returns an empty list and
leaves the session — both committed and pending state — untouched. -/
theorem c1_create_mode_noop (target_date : Int) (st : MState)
    (h : 0 < ((st.sess.pending.trips.filter fun t =>
          dateOf t.scheduled_start == target_date).length)) :
    generate_daily_schedule target_date false noFail st =
      (.ok [], { st with opIdx := st.opIdx + 1 }) := by
  rw [generate_daily_schedule]
  rw [bind_run, dbRead_run]
  simp only [h, if_pos, Bool.not_eq_true, and_true, not_false_eq_true]
  rfl

/-- Witness for C1: on a store with a trip already scheduled on day 0, CREATE
mode returns an empty list and the session is unchanged. -/
theorem c1_witness :
    generate_daily_schedule 0 false noFail stC1 =
      (.ok [], { stC1 with opIdx := stC1.opIdx + 1 }) :=
  c1_create_mode_noop 0 stC1 (by norm_num [stC1, dbC1, List.filter, dateOf])

/-- Running a write statement under `noFail`. -/
theorem dbExec_run (f : DB → DB) (st : MState) :
    dbExec f noFail st =
      (.ok (), { opIdx := st.opIdx + 1,
                 sess := { st.sess with pending := f st.sess.pending } }) := rfl

/-- A trip of the target date contributes its id to the collected set. -/
theorem mem_dateTripIds (target_date : Int) (trips : List Trip) (t : Trip)
    (h : t ∈ trips) (hd : dateOf t.scheduled_start = target_date) :
    t.id ∈ (trips.filter fun t => dateOf t.scheduled_start == target_date).map (·.id) := by
  exact List.mem_map_of_mem _ (List.mem_filter.mpr ⟨h, by simp [hd]⟩)

/-- If the collected trip-id set is empty, no trip of the date exists. -/
theorem dateTripIds_nil (target_date : Int) (trips : List Trip)
    (h : (trips.filter fun t => dateOf t.scheduled_start == target_date).map (·.id) = []) :
    ∀ t ∈ trips, dateOf t.scheduled_start ≠ target_date := by
  intro t ht hd
  have := mem_dateTripIds target_date trips t ht hd
  rw [h] at this
  exact List.not_mem_nil _ this

/-- An assignment of the target date contributes its id to the collected set. -/
theorem mem_dateAssignIds (target_date : Int) (assignments : List RotationAssignment)
    (a : RotationAssignment) (h : a ∈ assignments) (hd : a.shift_date = target_date) :
    a.id ∈ (assignments.filter fun a => a.shift_date == target_date).map (·.id) := by
  exact List.mem_map_of_mem _ (List.mem_filter.mpr ⟨h, by simp [hd]⟩)

/-- If the collected assignment-id set is empty, no assignment of the date
exists. -/
theorem dateAssignIds_nil (target_date : Int) (assignments : List RotationAssignment)
    (h : (assignments.filter fun a => a.shift_date == target_date).map (·.id) = []) :
    ∀ a ∈ assignments, a.shift_date ≠ target_date := by
  intro a ha hd
  have := mem_dateAssignIds target_date assignments a ha hd
  rw [h] at this
  exact List.not_mem_nil _ this

/-- Running the cleanup under `noFail` deletes exactly the collected records
from the pending state and commits nothing. -/
theorem regenerateCleanup_run (target_date : Int) (st : MState) :
    ∃ n, regenerateCleanup target_date noFail st =
      (.ok (), ⟨n, { committed := st.sess.committed,
                     pending := cleanupPending target_date st.sess.pending }⟩) := by
  rw [regenerateCleanup]
  by_cases htr : ((st.sess.pending.trips.filter fun t =>
      dateOf t.scheduled_start == target_date).map (·.id)) = [] <;>
    by_cases has : ((st.sess.pending.assignments.filter fun a =>
        a.shift_date == target_date).map (·.id)) = [] <;>
      simp [bind_run, dbRead_run, dbExec_run, pure_run, dbFlush, htr, has, cleanupPending,
        List.filter_eq_self]

/-- Nothing filtered against the date's id sets survives the cleanup:
membership facts about `cleanupPending`. -/
theorem cleanupPending_spec (target_date : Int) (db : DB) :
    (∀ t ∈ (cleanupPending target_date db).trips, dateOf t.scheduled_start ≠ target_date) ∧
    (∀ a ∈ (cleanupPending target_date db).assignments, a.shift_date ≠ target_date) ∧
    (∀ tk ∈ (cleanupPending target_date db).tickets, ∀ t ∈ db.trips,
      dateOf t.scheduled_start = target_date → tk.trip_id ≠ t.id) ∧
    (∀ g ∈ (cleanupPending target_date db).gps, ∀ t ∈ db.trips,
      dateOf t.scheduled_start = target_date → g.trip_id ≠ t.id) ∧
    (∀ e ∈ (cleanupPending target_date db).exchanges, ∀ a ∈ db.assignments,
      a.shift_date = target_date → e.rotation_assignment_id ≠ a.id) ∧
    (cleanupPending target_date db).routes = db.routes ∧
    (cleanupPending target_date db).drivers = db.drivers ∧
    (cleanupPending target_date db).vehicles = db.vehicles := by
  refine ⟨?_, ?_, ?_, ?_, ?_, rfl, rfl, rfl⟩
  · intro t ht hd
    obtain ⟨htin, hnc⟩ := List.mem_filter.mp ht
    simp at hnc
    exact hnc t htin hd rfl
  · intro a ha hd
    obtain ⟨hain, hnc⟩ := List.mem_filter.mp ha
    simp at hnc
    exact hnc a hain hd rfl
  · intro tk htk t ht hd heq
    obtain ⟨htkin, hnc⟩ := List.mem_filter.mp htk
    simp at hnc
    exact hnc t ht hd heq.symm
  · intro g hg t ht hd heq
    obtain ⟨hgin, hnc⟩ := List.mem_filter.mp hg
    simp at hnc
    exact hnc t ht hd heq.symm
  · intro e he a ha hd heq
    obtain ⟨hein, hnc⟩ := List.mem_filter.mp he
    simp at hnc
    exact hnc a ha hd heq.symm

/-- **C5.** The REGENERATE cleanup phase succeeds (absent injected failures)
and leaves the pending state — the state the rebuild then runs on — with zero
trips of the date, zero assignments of the date, zero tickets or GPS records
referencing the date's trips, and zero driver exchanges referencing the
date's assignments, while committed state and the other pools are
untouched. -/
theorem c5_cleanup_complete (target_date : Int) (st : MState) :
    ∃ st' : MState, regenerateCleanup target_date noFail st = (.ok (), st') ∧
      st'.sess.committed = st.sess.committed ∧
      (∀ t ∈ st'.sess.pending.trips, dateOf t.scheduled_start ≠ target_date) ∧
      (∀ a ∈ st'.sess.pending.assignments, a.shift_date ≠ target_date) ∧
      (∀ tk ∈ st'.sess.pending.tickets, ∀ t ∈ st.sess.pending.trips,
        dateOf t.scheduled_start = target_date → tk.trip_id ≠ t.id) ∧
      (∀ g ∈ st'.sess.pending.gps, ∀ t ∈ st.sess.pending.trips,
        dateOf t.scheduled_start = target_date → g.trip_id ≠ t.id) ∧
      (∀ e ∈ st'.sess.pending.exchanges, ∀ a ∈ st.sess.pending.assignments,
        a.shift_date = target_date → e.rotation_assignment_id ≠ a.id) ∧
      st'.sess.pending.routes = st.sess.pending.routes ∧
      st'.sess.pending.drivers = st.sess.pending.drivers ∧
      st'.sess.pending.vehicles = st.sess.pending.vehicles := by
  obtain ⟨n, hrun⟩ := regenerateCleanup_run target_date st
  obtain ⟨h1, h2, h3, h4, h5, h6, h7, h8⟩ := cleanupPending_spec target_date st.sess.pending
  exact ⟨_, hrun, rfl, h1, h2, h3, h4, h5, h6, h7, h8⟩

theorem noCommit_pure {α : Type} (a : α) : NoCommit (pure a : M α) := fun _ _ => rfl

theorem noCommit_bind {α β : Type} (m : M α) (k : α → M β)
    (hm : NoCommit m) (hk : ∀ a, NoCommit (k a)) : NoCommit (m >>= k) := by
  intro fs st
  have hm' := hm fs st
  rw [bind_run]
  rcases hmk : m fs st with ⟨r, st'⟩
  rw [hmk] at hm'
  cases r with
  | ok a => exact (hk a fs st').trans hm'
  | error e => exact hm'

theorem noCommit_dbRead {α : Type} (f : DB → α) : NoCommit (dbRead f) := by
  intro fs st
  simp only [dbRead]
  split <;> rfl

theorem noCommit_dbExec (f : DB → DB) : NoCommit (dbExec f) := by
  intro fs st
  simp only [dbExec]
  split <;> rfl

theorem noCommit_dbFlush : NoCommit dbFlush := noCommit_dbExec id

theorem noCommit_dbAdd {α : Type} (f : DB → α × DB) : NoCommit (dbAdd f) := fun _ _ => rfl

theorem noCommit_ite {α : Type} (c : Prop) [Decidable c] (m m' : M α)
    (h1 : NoCommit m) (h2 : NoCommit m') : NoCommit (if c then m else m') := by
  by_cases hc : c
  · simpa [hc] using h1
  · simpa [hc] using h2

theorem noCommit_foldlM {α β : Type} (f : β → α → M β)
    (hf : ∀ b a, NoCommit (f b a)) : ∀ (l : List α) (b : β), NoCommit (l.foldlM f b) := by
  intro l
  induction l with
  | nil => intro b; exact noCommit_pure b
  | cons a rest ih =>
    intro b
    rw [List.foldlM_cons]
    exact noCommit_bind _ _ (hf b a) fun b' => ih b'

theorem noCommit_routeStep (target_date : Int) (all_drivers : List Driver)
    (all_vehicles : List Vehicle) (acc : Nat × Nat × List Trip) (route : Route) :
    NoCommit (routeStep target_date all_drivers all_vehicles acc route) := by
  rw [routeStep]
  apply noCommit_ite
  · exact noCommit_pure acc
  · apply noCommit_bind _ _ (noCommit_dbAdd _)
    intro assignments
    apply noCommit_bind _ _ noCommit_dbFlush
    intro u
    cases assignments with
    | nil => exact noCommit_pure _
    | cons a1 tl =>
      cases tl with
      | nil => exact noCommit_pure _
      | cons a2 tl2 => exact noCommit_bind _ _ (noCommit_dbAdd _) fun newTrips => noCommit_pure _

theorem noCommit_regenerateCleanup (target_date : Int) :
    NoCommit (regenerateCleanup target_date) := by
  rw [regenerateCleanup]
  apply noCommit_bind _ _ (noCommit_dbRead _)
  intro assignment_ids
  apply noCommit_bind _ _ (noCommit_dbRead _)
  intro trip_ids
  apply noCommit_bind
  · exact noCommit_ite _ _ _
      (noCommit_bind _ _ (noCommit_dbExec _) fun u => noCommit_dbExec _)
      (noCommit_pure ())
  intro u1
  apply noCommit_bind
  · exact noCommit_ite _ _ _ (noCommit_dbExec _) (noCommit_pure ())
  intro u2
  apply noCommit_bind
  · exact noCommit_ite _ _ _ (noCommit_dbExec _) (noCommit_pure ())
  intro u3
  apply noCommit_bind
  · exact noCommit_ite _ _ _ (noCommit_dbExec _) (noCommit_pure ())
  intro u4
  exact noCommit_dbFlush

theorem commitOutcome_pure {α : Type} (P : α → Prop) (a : α) (h : P a) :
    CommitOutcome P (pure a : M α) := by
  intro fs st
  constructor
  · intro e st' he
    cases he
  · intro b st' hb
    injection hb with h1 h2
    injection h1 with h1
    subst h2
    exact Or.inr ⟨h1 ▸ h, rfl⟩

theorem commitOutcome_bind {α β : Type} (m : M α) (k : α → M β) (P : β → Prop)
    (hm : NoCommit m) (hk : ∀ a, CommitOutcome P (k a)) : CommitOutcome P (m >>= k) := by
  intro fs st
  have hm' := hm fs st
  constructor
  · intro e st' he
    rw [bind_run] at he
    rcases hmk : m fs st with ⟨r, stm⟩
    rw [hmk] at he hm'
    cases r with
    | error e0 =>
      injection he with h1 h2
      subst h2
      exact hm'
    | ok a =>
      exact ((hk a fs stm).1 e st' he).trans hm'
  · intro b st' hb
    rw [bind_run] at hb
    rcases hmk : m fs st with ⟨r, stm⟩
    rw [hmk] at hb hm'
    cases r with
    | error e0 => cases hb
    | ok a =>
      rcases (hk a fs stm).2 b st' hb with h | ⟨hp, h⟩
      · exact Or.inl h
      · exact Or.inr ⟨hp, h.trans hm'⟩

theorem commitOutcome_ite {α : Type} (P : α → Prop) (c : Prop) [Decidable c] (m m' : M α)
    (h1 : CommitOutcome P m) (h2 : CommitOutcome P m') :
    CommitOutcome P (if c then m else m') := by
  by_cases hc : c
  · simpa [hc] using h1
  · simpa [hc] using h2

theorem commitOutcome_commitThen {α : Type} (P : α → Prop) (g : α) :
    CommitOutcome P (dbCommit >>= fun _ => pure g) := by
  intro fs st
  constructor
  · intro e st' he
    rw [bind_run] at he
    by_cases hc : fs st.opIdx
    · simp only [dbCommit, hc, if_true, ite_true] at he
      injection he with h1 h2
      subst h2
      rfl
    · simp only [dbCommit, hc, if_false, ite_false, pure_run] at he
      cases he
  · intro b st' hb
    rw [bind_run] at hb
    by_cases hc : fs st.opIdx
    · simp only [dbCommit, hc, if_true, ite_true] at hb
      cases hb
    · simp only [dbCommit, hc, if_false, ite_false, pure_run] at hb
      injection hb with h1 h2
      subst h2
      exact Or.inl rfl

theorem commitOutcome_generate (target_date : Int) :
    CommitOutcome (fun trips => trips = []) (generate_daily_schedule target_date true) := by
  rw [generate_daily_schedule]
  apply commitOutcome_bind _ _ _ (noCommit_dbRead _)
  intro existing_trips_count
  apply commitOutcome_ite
  · exact commitOutcome_pure _ [] rfl
  apply commitOutcome_bind _ _ _
    (noCommit_ite _ _ _ (noCommit_regenerateCleanup target_date) (noCommit_pure ()))
  intro u
  apply commitOutcome_bind _ _ _ (noCommit_dbRead _)
  intro routes
  apply commitOutcome_bind _ _ _ (noCommit_dbRead _)
  intro all_drivers
  apply commitOutcome_bind _ _ _ (noCommit_dbRead _)
  intro all_vehicles
  apply commitOutcome_ite
  · exact commitOutcome_pure _ [] rfl
  apply commitOutcome_bind _ _ _
    (noCommit_foldlM _ (fun b a => noCommit_routeStep target_date all_drivers all_vehicles b a)
      routes (0, 0, []))
  intro r
  exact commitOutcome_commitThen _ r.2.2

/-- **C6 (amended).** For every failure pattern: an error anywhere in the
regeneration leaves the committed store exactly as it was (and the error is
the returned value, i.e. propagated); a successful regeneration either
committed the entire pending state (the full delete-then-rebuild) or — on the
empty-pool early return — committed nothing and returned an empty list. -/
theorem c6_regeneration_atomicity (target_date : Int) (fs : FailSet) (st : MState) :
    (∀ e st', generate_daily_schedule target_date true fs st = (.error e, st') →
      st'.sess.committed = st.sess.committed) ∧
    (∀ trips st', generate_daily_schedule target_date true fs st = (.ok trips, st') →
      st'.sess.committed = st'.sess.pending ∨
        (trips = [] ∧ st'.sess.committed = st.sess.committed)) :=
  commitOutcome_generate target_date fs st

/-- **C6 (counterexample).** A forced regeneration on a date with stored
trips but an empty driver pool succeeds with no failure anywhere, yet the
delete-then-rebuild is NOT committed: the call returns ok with the deletion
only pending, the committed store unchanged — refuting the claim's
dichotomy "either the entire delete-then-rebuild is committed, or there was
a failure". -/
theorem c6_counterexample :
    ∃ st' : MState, generate_daily_schedule 0 true noFail stC6 = (.ok [], st') ∧
      st'.sess.committed = stC6.sess.committed ∧
      st'.sess.pending.trips = [] ∧
      st'.sess.committed.trips ≠ [] ∧
      st'.sess.committed ≠ st'.sess.pending := by
  have hpend : (cleanupPending 0 dbC6).trips = [] := by
    simp only [cleanupPending, dbC6, List.filter, dateOf]
    norm_num
  have hrun : generate_daily_schedule 0 true noFail stC6 =
      (.ok [], ⟨10, ⟨dbC6, cleanupPending 0 dbC6⟩⟩) := by
    norm_num [generate_daily_schedule, regenerateCleanup, bind_run, dbRead_run, dbExec_run,
      pure_run, dbFlush, stC6, dbC6, cleanupPending, dateOf, List.filter]
  refine ⟨_, hrun, rfl, hpend, ?_, ?_⟩
  · show dbC6.trips ≠ []
    simp [dbC6]
  · intro h
    have h2 : dbC6.trips = (cleanupPending 0 dbC6).trips := congrArg DB.trips h
    rw [hpend] at h2
    revert h2
    simp [dbC6]

/-- The sequencing loop realises the claimed schedule from any cycle time. -/
theorem seqLoop_spec_eq (route : Route) (td : Int) (a1 a2 : RotationAssignment) :
    ∀ (current : Nat) (toggle : Bool) (nid : Nat),
      ((seqLoop route td a1 a2 current toggle nid).1.map pairSummaries).flatten =
        specFrom route.estimated_time_minutes route.turnaround_time_minutes current := by
  have main : ∀ (n current : Nat) (toggle : Bool) (nid : Nat), 840 - current = n →
      ((seqLoop route td a1 a2 current toggle nid).1.map pairSummaries).flatten =
        specFrom route.estimated_time_minutes route.turnaround_time_minutes current := by
    intro n
    induction n using Nat.strong_induction_on with
    | _ n ih =>
      intro current toggle nid hn
      rw [seqLoop.eq_def, specFrom.eq_def]
      by_cases hc : current < 840
      · simp only [hc, if_true, ite_true]
        by_cases hrs : (current : ℚ) + route.estimated_time_minutes +
            route.turnaround_time_minutes < 840
        · simp only [hrs, if_true, ite_true, List.map_cons, List.flatten_cons]
          rw [ih (840 - (current + 60)) (by omega) (current + 60) (!toggle) (nid + 2) rfl]
          simp [pairSummaries, tripSummary]
        · simp only [hrs, if_false, ite_false, List.map_cons, List.flatten_cons]
          rw [ih (840 - (current + 60)) (by omega) (current + 60) (!toggle) (nid + 1) rfl]
          simp [pairSummaries, tripSummary]
      · simp [hc]
  exact fun current toggle nid => main (840 - current) current toggle nid rfl

/-- Every cycle time reachable from `current` by 60-minute steps and lying
strictly before the window end contributes its inbound summary to the
claimed schedule, provided the computed inbound start is before the bound. -/
theorem specFrom_mem_inbound (est turn : ℚ) :
    ∀ (n current t : Nat), 840 - current = n → current ≤ t → t < 840 → 60 ∣ (t - current) →
      ((t : ℚ) + est + turn < 840) →
      (TripDirection.INBOUND, (t : ℚ) + est + turn, (t : ℚ) + est + turn + est) ∈
        specFrom est turn current := by
  intro n
  induction n using Nat.strong_induction_on with
  | _ n ih =>
    intro current t hn hle hlt hdvd hrs
    rw [specFrom.eq_def]
    have hc : current < 840 := lt_of_le_of_lt hle hlt
    simp only [hc, if_true, ite_true]
    rcases Nat.eq_or_lt_of_le hle with heq | hlt2
    · subst heq
      apply List.mem_append_left
      simp [hrs]
    · obtain ⟨k, hk⟩ := hdvd
      apply List.mem_append_right
      exact ih (840 - (current + 60)) (by omega) (current + 60) t rfl (by omega) hlt
        ⟨k - 1, by omega⟩ hrs

/-- **C4.** For any route and assignments, the trip sequencer's output -
projected to (direction, scheduled start minute, scheduled end minute) -
equals the schedule the claim describes: cycles from 06:00 stepping 60
minutes while strictly before 14:00, one OUTBOUND trip per cycle with
end = start + estimated, and an INBOUND trip included exactly when
outbound end + turnaround < 14:00, with the stated start and end.  In
particular, for estimated = 40 and turnaround = 10, the 13:00 cycle's
inbound (start 13:50, end 14:30) is included, 13:50 being strictly before
the 14:00 bound. -/
theorem c4_trip_sequencer (route : Route) (target_date : Int)
    (a1 a2 : RotationAssignment) (nid : Nat) :
    (((seqLoop route target_date a1 a2 360 false nid).1.map pairSummaries).flatten =
      specFrom route.estimated_time_minutes route.turnaround_time_minutes 360) ∧
    (TripDirection.INBOUND, (830 : ℚ), 870) ∈ specFrom 40 10 360 ∧
    ((830 : ℚ) < 840) := by
  refine ⟨seqLoop_spec_eq route target_date a1 a2 360 false nid, ?_, by norm_num⟩
  have h := specFrom_mem_inbound 40 10 (840 - 360) 360 780 rfl (by norm_num) (by norm_num)
    ⟨7, by norm_num⟩ (by norm_num)
  norm_num at h
  exact h

/-- Field-level characterisation of every outbound/inbound pair the
sequencing loop emits: route identity, directions, and the scheduled-time
relations between the pair's members. -/
theorem seqLoop_pairs_spec (route : Route) (td : Int) (a1 a2 : RotationAssignment) :
    ∀ (n current : Nat) (toggle : Bool) (nid : Nat), 840 - current = n →
      ∀ p ∈ (seqLoop route td a1 a2 current toggle nid).1,
        p.1.route_id = route.id ∧
        p.1.direction = TripDirection.OUTBOUND ∧
        p.1.scheduled_end.minute = p.1.scheduled_start.minute + route.estimated_time_minutes ∧
        (∀ ti, p.2 = some ti → ti.route_id = route.id ∧
          ti.direction = TripDirection.INBOUND ∧
          ti.scheduled_start.minute =
            p.1.scheduled_end.minute + route.turnaround_time_minutes ∧
          ti.scheduled_end.minute =
            ti.scheduled_start.minute + route.estimated_time_minutes) := by
  intro n
  induction n using Nat.strong_induction_on with
  | _ n ih =>
    intro current toggle nid hn p hp
    rw [seqLoop.eq_def] at hp
    by_cases hc : current < 840
    · simp only [hc, if_true, ite_true] at hp
      by_cases hrs : (current : ℚ) + route.estimated_time_minutes +
          route.turnaround_time_minutes < 840
      · simp only [hrs, if_true, ite_true, List.mem_cons] at hp
        rcases hp with rfl | hp
        · refine ⟨rfl, rfl, rfl, ?_⟩
          intro ti hti
          injection hti with hti
          subst hti
          exact ⟨rfl, rfl, rfl, rfl⟩
        · exact ih (840 - (current + 60)) (by omega) (current + 60) (!toggle) (nid + 2) rfl p hp
      · simp only [hrs, if_false, ite_false, List.mem_cons] at hp
        rcases hp with rfl | hp
        · refine ⟨rfl, rfl, rfl, ?_⟩
          intro ti hti
          cases hti
        · exact ih (840 - (current + 60)) (by omega) (current + 60) (!toggle) (nid + 1) rfl p hp
    · simp [hc] at hp

/-- **C8.** For every outbound/inbound pair the sequencer produces, when the
route's turnaround is non-negative (the model default is 10), the inbound's
scheduled start is at least the outbound's scheduled end plus the turnaround,
and the two scheduled windows do not overlap (neither starts strictly inside
the other's window). -/
theorem c8_no_overlap (route : Route) (target_date : Int) (a1 a2 : RotationAssignment)
    (nid : Nat) (hturn : 0 ≤ route.turnaround_time_minutes) :
    ∀ p ∈ (seqLoop route target_date a1 a2 360 false nid).1, ∀ ti, p.2 = some ti →
      ti.scheduled_start.minute ≥
        p.1.scheduled_end.minute + route.turnaround_time_minutes ∧
      ¬(p.1.scheduled_start.minute < ti.scheduled_end.minute ∧
        ti.scheduled_start.minute < p.1.scheduled_end.minute) := by
  intro p hp ti hti
  obtain ⟨-, -, -, hin⟩ :=
    seqLoop_pairs_spec route target_date a1 a2 (840 - 360) 360 false nid rfl p hp
  obtain ⟨-, -, h1, h2⟩ := hin ti hti
  constructor
  · rw [h1]
  · rintro ⟨hov1, hov2⟩
    rw [h1] at hov2
    linarith

/-- Witness for C8: the demonstration route has a non-negative turnaround and
its sequenced schedule contains an outbound/inbound pair satisfying the
separation and non-overlap properties. -/
theorem c8_witness :
    (0 : ℚ) ≤ demoRoute.turnaround_time_minutes ∧
    ∃ p ∈ (seqLoop demoRoute 0 demoA1 demoA2 360 false 1).1, ∃ ti, p.2 = some ti ∧
      (ti.scheduled_start.minute ≥
        p.1.scheduled_end.minute + demoRoute.turnaround_time_minutes ∧
      ¬(p.1.scheduled_start.minute < ti.scheduled_end.minute ∧
        ti.scheduled_start.minute < p.1.scheduled_end.minute)) := by
  have hturn : (0 : ℚ) ≤ demoRoute.turnaround_time_minutes := by norm_num [demoRoute]
  have hc8 := c8_no_overlap demoRoute 0 demoA1 demoA2 1 hturn
  have hhead : ∃ p ∈ (seqLoop demoRoute 0 demoA1 demoA2 360 false 1).1, p.2.isSome = true := by
    rw [seqLoop.eq_def]
    norm_num [demoRoute]
  obtain ⟨p, hp, hsome⟩ := hhead
  obtain ⟨ti, hti⟩ := Option.isSome_iff_exists.mp hsome
  exact ⟨hturn, p, hp, ti, hti, hc8 p hp ti hti⟩

/-- `pure a >>= k` runs as `k a` in `M`. -/
theorem pure_bind_M {α β : Type} (a : α) (k : α → M β) : (pure a >>= k) = k a := rfl

/-- **C7 (amended).** The per-route pool partitioning as the code performs
it: a route's claimed slice is a contiguous Python slice truncated at the
pool end — `min 3 (len - idx)` drivers and `min 2 (len - idx)` vehicles, no
wraparound — a route whose slice has fewer than 2 drivers or fewer than 2
vehicles is skipped as a pure no-op without advancing the shared indices,
a skipped route does not abort the fold (the remaining routes are processed
from the same accumulator), and a route with an adequate slice advances the
shared indices by 3 and 2 modulo the pool sizes. -/
theorem c7_rotating_index_behaviour (target_date : Int) (all_drivers : List Driver)
    (all_vehicles : List Vehicle) (acc : Nat × Nat × List Trip) (route : Route) :
    ((all_drivers.drop acc.1).take 3).length = min 3 (all_drivers.length - acc.1) ∧
    ((all_vehicles.drop acc.2.1).take 2).length = min 2 (all_vehicles.length - acc.2.1) ∧
    ((((all_drivers.drop acc.1).take 3).length < 2 ∨
        ((all_vehicles.drop acc.2.1).take 2).length < 2) →
      (routeStep target_date all_drivers all_vehicles acc route = pure acc ∧
        ∀ rest : List Route,
          (route :: rest).foldlM (routeStep target_date all_drivers all_vehicles) acc =
            rest.foldlM (routeStep target_date all_drivers all_vehicles) acc)) ∧
    (¬(((all_drivers.drop acc.1).take 3).length < 2 ∨
        ((all_vehicles.drop acc.2.1).take 2).length < 2) →
      ∀ st : MState, ∃ (g : List Trip) (st' : MState),
        routeStep target_date all_drivers all_vehicles acc route noFail st =
          (.ok ((acc.1 + 3) % all_drivers.length, (acc.2.1 + 2) % all_vehicles.length, g),
            st')) := by
  refine ⟨by simp, by simp, ?_, ?_⟩
  · intro hskip
    have hstep : routeStep target_date all_drivers all_vehicles acc route = pure acc := by
      rw [routeStep, if_pos hskip]
    refine ⟨hstep, ?_⟩
    intro rest
    rw [List.foldlM_cons, hstep, pure_bind_M]
  · intro hskip st
    rw [routeStep, if_neg hskip]
    push_neg at hskip
    obtain ⟨hd2, hv2⟩ := hskip
    rcases hrd : (all_drivers.drop acc.1).take 3 with _ | ⟨d1, rd1⟩
    · rw [hrd] at hd2; simp at hd2
    rcases hrd1 : rd1 with _ | ⟨d2, rd2⟩
    · rw [hrd, hrd1] at hd2; simp at hd2
    rcases hrv : (all_vehicles.drop acc.2.1).take 2 with _ | ⟨v1, rv1⟩
    · rw [hrv] at hv2; simp at hv2
    rcases hrv1 : rv1 with _ | ⟨v2, rv2⟩
    · rw [hrv, hrv1] at hv2; simp at hv2
    have hrv2 : rv2 = [] := by
      have := congrArg List.length hrv
      rw [hrv1] at this
      simp [List.length_take] at this
      cases rv2 with
      | nil => rfl
      | cons x xs => simp at this; omega
    subst hrv1
    subst hrv2
    exact ⟨_, _, rfl⟩

/-- From the window start the sequencing loop always emits at least one
cycle. -/
theorem seqLoop_fst_ne_nil (route : Route) (td : Int) (a1 a2 : RotationAssignment)
    (toggle : Bool) (nid : Nat) :
    (seqLoop route td a1 a2 360 toggle nid).1 ≠ [] := by
  rw [seqLoop.eq_def]
  simp only [show (360 : Nat) < 840 by norm_num, if_true, ite_true]
  split <;> simp

/-- The trips a route's sequencing run adds are never empty. -/
theorem addSeqTrips_ne_nil (route : Route) (td : Int) (a1 a2 : RotationAssignment) (db : DB) :
    (addSeqTrips route td a1 a2 db).1 ≠ [] := by
  have h := seqLoop_fst_ne_nil route td a1 a2 false db.next_trip_id
  rcases hq : (seqLoop route td a1 a2 360 false db.next_trip_id).1 with _ | ⟨q, qs⟩
  · exact absurd hq h
  · simp [addSeqTrips, hq]

/-- Every trip a route's sequencing run adds belongs to that route. -/
theorem addSeqTrips_route_id (route : Route) (td : Int) (a1 a2 : RotationAssignment)
    (db : DB) : ∀ t ∈ (addSeqTrips route td a1 a2 db).1, t.route_id = route.id := by
  intro t ht
  simp only [addSeqTrips] at ht
  rw [List.mem_flatten] at ht
  obtain ⟨l, hl, htl⟩ := ht
  rw [List.mem_map] at hl
  obtain ⟨p, hp, rfl⟩ := hl
  have hspec := seqLoop_pairs_spec route td a1 a2 (840 - 360) 360 false db.next_trip_id rfl p hp
  rcases List.mem_cons.mp htl with rfl | htl2
  · exact hspec.1
  · cases h2 : p.2 with
    | none =>
      rw [h2] at htl2
      simp at htl2
    | some ti =>
      rw [h2] at htl2
      simp at htl2
      subst htl2
      exact (hspec.2.2.2 _ h2).1

/-- **C7 (counterexample).** With four drivers and four vehicles (so the
driver pool holds at least 3) and two active routes, the claim predicts the
second route's slice wraps modulo the pool size to 3 drivers and the route is
processed.  In the code the slice is a truncating Python slice: after the
first route advances the shared index to 3, the second route's slice
`drivers[3:6]` has a single driver, so the route is skipped — the run
produces a non-empty schedule in which every trip and every stored
assignment belongs to route 1, and nothing references route 2. -/
theorem c7_counterexample :
    dbC7.drivers.length = 4 ∧ dbC7.vehicles.length = 4 ∧
    ((dbC7.drivers.drop 3).take 3).length = 1 ∧
    (∃ (g : List Trip) (st1 : MState),
      routeStep 0 dbC7.drivers dbC7.vehicles (0, 0, []) demoRoute noFail ⟨4, stC7.sess⟩ =
        (.ok (3, 2, g), st1)) ∧
    (∀ g : List Trip,
      routeStep 0 dbC7.drivers dbC7.vehicles (3, 2, g) hillRoute = pure (3, 2, g)) ∧
    ∃ (trips : List Trip) (st' : MState),
      generate_daily_schedule 0 false noFail stC7 = (.ok trips, st') ∧
      trips ≠ [] ∧
      (∀ t ∈ trips, t.route_id = 1) ∧
      (∀ t ∈ st'.sess.committed.trips, t.route_id = 1) ∧
      (∀ a ∈ st'.sess.committed.assignments, a.route_id = 1) := by
  refine ⟨rfl, rfl, rfl, ⟨_, _, rfl⟩, fun g => rfl, ?_⟩
  refine ⟨_, _, rfl, ?_, ?_, ?_, ?_⟩
  · show (addSeqTrips demoRoute 0 aC7_1 aC7_2 dbMidC7).1 ≠ []
    exact addSeqTrips_ne_nil demoRoute 0 aC7_1 aC7_2 dbMidC7
  · show ∀ t ∈ (addSeqTrips demoRoute 0 aC7_1 aC7_2 dbMidC7).1, t.route_id = 1
    exact fun t ht => addSeqTrips_route_id demoRoute 0 aC7_1 aC7_2 dbMidC7 t ht
  · show ∀ t ∈ (addSeqTrips demoRoute 0 aC7_1 aC7_2 dbMidC7).1, t.route_id = 1
    exact fun t ht => addSeqTrips_route_id demoRoute 0 aC7_1 aC7_2 dbMidC7 t ht
  · show ∀ a ∈ ([aC7_1, aC7_2] : List RotationAssignment), a.route_id = 1
    decide
